import Mathlib

set_option linter.unusedVariables false

/-! Verification development for the account layer of a Fuel Rust SDK
(`packages/fuels-accounts/src/account.rs`): resource selection, fee
reconciliation, transaction assembly and the three transfer workflows,
shallowly embedded.  Collaborators whose code lives outside the available
sources (`accounts_utils`, the `fuels_core` transaction builders, the
wallet implementations of the required trait methods, the provider/node
client) are modelled from the design document and marked as such in their
doc comments. -/

namespace Fuels

abbrev Address := Nat

abbrev AssetId := Nat

/-- The network's native fee-paying asset (`BASE_ASSET_ID` in `fuels_core`). -/
def BASE_ASSET_ID : AssetId := 0

/-- `AssetId::BASE` from `fuel_types`: the same zeroed asset id. -/
def AssetId.BASE : AssetId := 0

structure Coin where
  utxo : Nat
  owner : Address
  asset_id : AssetId
  amount : Nat
deriving DecidableEq

structure MessageCoin where
  nonce : Nat
  sender : Address
  recipient : Address
  amount : Nat
deriving DecidableEq

/-- A spendable resource: an unspent coin or a bridged message. -/
inductive CoinType where
  | coin (c : Coin)
  | message (m : MessageCoin)
deriving DecidableEq

def CoinType.amount : CoinType → Nat
  | .coin c => c.amount
  | .message m => m.amount

/-- Transaction inputs: a contract input (zeroed placeholder references)
or a resource-backed input. -/
inductive Input where
  | contract (utxoTx utxoIndex balanceRoot stateRoot txPointer contractId : Nat)
  | resourceSigned (resource : CoinType)
deriving DecidableEq

def Input.isContract : Input → Bool
  | .contract .. => true
  | .resourceSigned _ => false

def Input.resourceAmount : Input → Nat
  | .contract .. => 0
  | .resourceSigned r => r.amount

/-- Transaction outputs. -/
inductive Output where
  | coin (toAddr : Address) (amount : Nat) (asset_id : AssetId)
  | change (owner : Address) (amount : Nat) (asset_id : AssetId)
  | contract (inputIndex balanceRoot stateRoot : Nat)
  | message (recipient : Address) (amount : Nat)
deriving DecidableEq

def Output.isChangeFor (owner : Address) (asset : AssetId) : Output → Bool
  | .change o _ a => o = owner && a = asset
  | _ => false

/-- `TxPolicies`: recognized options, defaults when unset. -/
structure TxPolicies where
  gasPriceCeiling : Option Nat := none
  maturity : Option Nat := none
  expiration : Option Nat := none
  witnessLimit : Option Nat := none
deriving DecidableEq

structure TransactionBuilder where
  inputs : List Input
  outputs : List Output
  witnesses : List Nat
  policies : TxPolicies
deriving DecidableEq

/-- The finished transaction; the byte-level encoding is an out-of-scope
collaborator, so a built transaction is the finalized builder. -/
abbrev Transaction := TransactionBuilder

/-- Execution receipts returned by the node after a transaction commits. -/
inductive Receipt where
  | messageOut (nonce : Nat) (amount : Nat)
  | scriptResult (result : Nat)
  | callReceipt
  | revertReceipt
deriving DecidableEq

/-- Terminal status reported by the node for a submitted transaction. -/
inductive TxStatus where
  | success (receipts : List Receipt)
  | failure (receipts : List Receipt) (reason : String)
deriving DecidableEq

structure AccountError where
  msg : String
deriving DecidableEq

/-- `AccountError::no_provider` (account.rs lines 34 to 36). -/
def AccountError.no_provider : AccountError :=
  { msg := "No provider was setup: make sure to set_provider in your account!" }

inductive Error where
  | accountError (msg : String)
  | insufficientFunds
  | checkedExecution (reason : String)
deriving DecidableEq

/-- The `From<AccountError> for Error` conversion (account.rs lines 47 to 51). -/
def AccountError.toError (e : AccountError) : Error := .accountError e.msg

/-- `ResourceFilter` as constructed in `get_spendable_resources`
(account.rs lines 111 to 116): owner, asset, minimum amount, remainder
defaulted. -/
structure ResourceFilter where
  fromAddr : Address
  asset_id : AssetId
  amount : Nat
  excludedUtxos : List Nat := []
deriving DecidableEq

/-- The provider/node collaborator (out of scope, consumed through the
contracts of design section 6): each field is one remote query. -/
structure Provider where
  spendable : ResourceFilter → List CoinType
  estimateFee : TransactionBuilder → Nat
  coinsOf : Address → AssetId → List Coin
  assetBalanceOf : Address → AssetId → Nat
  balancesOf : Address → List (String × Nat)
  messagesOf : Address → List MessageCoin
  chainId : Nat
  commitStatus : TxStatus

/-- An account: an identity plus an optional bound network endpoint. -/
structure Account where
  address : Address
  provider : Option Provider

/-- Observable collaborator interactions, in the order they are performed. -/
inductive Event where
  | resourceQuery (filter : ResourceFilter)
  | coinsQuery (addr : Address) (asset : AssetId)
  | balanceQuery (addr : Address) (asset : AssetId)
  | balancesQuery (addr : Address)
  | messagesQuery (addr : Address)
  | inputSelection (asset : AssetId) (amount : Nat)
  | feeReconciliation (usedBaseAmount : Nat)
  | feeEstimation
  | submission (tx : Transaction)
deriving DecidableEq

/-- Outcome of a fallible Rust computation: an `Ok` value, a typed `Err`
returned to the caller, or a process abort (`panic`, e.g. from `expect`). -/
inductive Outcome (α : Type) where
  | ok (value : α)
  | err (e : Error)
  | panicked (msg : String)
deriving DecidableEq

/-- An effectful step of the account layer: its outcome together with the
ordered trace of collaborator interactions it performed. -/
abbrev M (α : Type) := Outcome α × List Event

def mpure {α : Type} (a : α) : M α := (.ok a, [])

def mbind {α β : Type} (x : M α) (f : α → M β) : M β :=
  match x with
  | (.ok a, e₁) => ((f a).1, e₁ ++ (f a).2)
  | (.err e, e₁) => (.err e, e₁)
  | (.panicked m, e₁) => (.panicked m, e₁)

def emit (ev : Event) : M Unit := (.ok (), [ev])

def throwErr {α : Type} (e : Error) : M α := (.err e, [])

/-- Rust `Option::expect`: the value, or a process abort carrying `msg`. -/
def expectOr {α : Type} (o : Option α) (msg : String) : M α :=
  match o with
  | some a => mpure a
  | none => (.panicked msg, [])

/-- Modelled from the spec: `try_provider` is a required trait method whose
implementations (wallets) are outside the sources; per design sections 3
and 7 an account holds an optional bound endpoint whose absence surfaces
the `NoProvider` account error. -/
def try_providerM (acc : Account) : M Provider :=
  match acc.provider with
  | some p => mpure p
  | none => throwErr AccountError.no_provider.toError

/-- `ViewOnlyAccount::get_coins` (account.rs lines 71 to 76). -/
def get_coins (acc : Account) (asset_id : AssetId) : M (List Coin) :=
  mbind (try_providerM acc) fun p =>
  mbind (emit (.coinsQuery acc.address asset_id)) fun _ =>
  mpure (p.coinsOf acc.address asset_id)

/-- `ViewOnlyAccount::get_asset_balance` (account.rs lines 81 to 86). -/
def get_asset_balance (acc : Account) (asset_id : AssetId) : M Nat :=
  mbind (try_providerM acc) fun p =>
  mbind (emit (.balanceQuery acc.address asset_id)) fun _ =>
  mpure (p.assetBalanceOf acc.address asset_id)

/-- `ViewOnlyAccount::get_messages` (account.rs lines 89 to 91). -/
def get_messages (acc : Account) : M (List MessageCoin) :=
  mbind (try_providerM acc) fun p =>
  mbind (emit (.messagesQuery acc.address)) fun _ =>
  mpure (p.messagesOf acc.address)

/-- `ViewOnlyAccount::get_balances` (account.rs lines 96 to 101). -/
def get_balances (acc : Account) : M (List (String × Nat)) :=
  mbind (try_providerM acc) fun p =>
  mbind (emit (.balancesQuery acc.address)) fun _ =>
  mpure (p.balancesOf acc.address)

/-- `ViewOnlyAccount::get_spendable_resources` (account.rs lines 106 to
122): build the filter, then forward it to the provider. -/
def get_spendable_resources (acc : Account) (asset_id : AssetId) (amount : Nat) :
    M (List CoinType) :=
  let filter : ResourceFilter := { fromAddr := acc.address, asset_id := asset_id, amount := amount }
  mbind (try_providerM acc) fun p =>
  mbind (emit (.resourceQuery filter)) fun _ =>
  mpure (p.spendable filter)

/-- Modelled from the spec: the greedy first-fit accumulation of design
section 4.1 — resources are consumed in order until the running sum reaches
the target, `none` when they run out; a zero target selects nothing. -/
def selectGreedy (resources : List CoinType) (target : Nat) : Option (List CoinType) :=
  if target = 0 then some []
  else
    match resources with
    | [] => none
    | r :: rest =>
      if target ≤ r.amount then some [r]
      else
        match selectGreedy rest (target - r.amount) with
        | some l => some (r :: l)
        | none => none

/-- Modelled from the spec: `Account::get_asset_inputs_for_amount` is a
required trait method implemented outside the sources; per design section
4.1 it queries the provider for spendable resources of the asset and
greedily selects until the amount is covered, failing with
`InsufficientFunds` otherwise. -/
def get_asset_inputs_for_amount (acc : Account) (asset_id : AssetId) (amount : Nat) :
    M (List Input) :=
  mbind (try_providerM acc) fun p =>
  mbind (emit (.inputSelection asset_id amount)) fun _ =>
  match selectGreedy
      (p.spendable { fromAddr := acc.address, asset_id := asset_id, amount := amount })
      amount with
  | some sel => mpure (sel.map Input.resourceSigned)
  | none => throwErr .insufficientFunds

/-- `Account::get_asset_outputs_for_amount` (account.rs lines 137 to 149):
the coin output to the recipient, then the change output for the account,
its amount left at zero for the node to fill in. -/
def get_asset_outputs_for_amount (acc : Account) (toAddr : Address) (asset_id : AssetId)
    (amount : Nat) : List Output :=
  [Output.coin toAddr amount asset_id,
   Output.change acc.address 0 asset_id]

/-- Modelled from the spec: `calculate_missing_base_amount` lives in
`accounts_utils`, which is absent from the sources; per design section 4.3
it asks the estimation collaborator for the required fee of the current
draft and clamps `requiredFee - alreadyCommittedBaseAmount` at zero. -/
def calculate_missing_base_amount (tb : TransactionBuilder) (used_base_amount : Nat)
    (p : Provider) : M Nat :=
  mbind (emit .feeEstimation) fun _ =>
  mpure (p.estimateFee tb - used_base_amount)

/-- Modelled from the spec: `adjust_inputs_outputs` lives in
`accounts_utils`, absent from the sources; per design section 4.2 the new
resource inputs are appended after every existing input (contract inputs
keep their leading positions) and a base-asset change output for the owner
is added unless one is already present. -/
def adjust_inputs_outputs (tb : TransactionBuilder) (new_base_inputs : List Input)
    (address : Address) : TransactionBuilder :=
  { tb with
    inputs := tb.inputs ++ new_base_inputs
    outputs :=
      if tb.outputs.any (Output.isChangeFor address BASE_ASSET_ID) then tb.outputs
      else tb.outputs ++ [Output.change address 0 BASE_ASSET_ID] }

/-- `Account::adjust_for_fee` (account.rs lines 154 to 171): one
reconciliation pass — compute the missing base amount and, when it is
positive, select that much more of the base asset and append it. -/
def adjust_for_fee (acc : Account) (tb : TransactionBuilder) (used_base_amount : Nat) :
    M TransactionBuilder :=
  mbind (emit (.feeReconciliation used_base_amount)) fun _ =>
  mbind (try_providerM acc) fun p =>
  mbind (calculate_missing_base_amount tb used_base_amount p) fun missing_base_amount =>
  if missing_base_amount > 0 then
    mbind (get_asset_inputs_for_amount acc BASE_ASSET_ID missing_base_amount) fun new_base_inputs =>
    mpure (adjust_inputs_outputs tb new_base_inputs acc.address)
  else
    mpure tb

/-- `Account::add_witnesses` default body (account.rs lines 174 to 176):
`Ok(())` with the builder untouched. -/
def add_witnesses (acc : Account) (tb : TransactionBuilder) : M TransactionBuilder :=
  mpure tb

/-- Modelled from the spec: `ScriptTransactionBuilder::prepare_transfer`
(`fuels_core`, absent from the sources) assembles a fresh builder from the
given inputs, outputs and policies, with no witnesses attached yet. -/
def prepare_transfer (inputs : List Input) (outputs : List Output) (tp : TxPolicies) :
    TransactionBuilder :=
  { inputs := inputs, outputs := outputs, witnesses := [], policies := tp }

/-- Modelled from the spec: `prepare_contract_transfer` (`fuels_core`,
absent from the sources): the same builder shape, the contract-call script
being out of scope. -/
def prepare_contract_transfer (contractId balance : Nat) (asset_id : AssetId)
    (inputs : List Input) (outputs : List Output) (tp : TxPolicies) : TransactionBuilder :=
  { inputs := inputs, outputs := outputs, witnesses := [], policies := tp }

/-- Modelled from the spec: `prepare_message_to_output` (`fuels_core`,
absent from the sources): a builder carrying a message-style output
addressed to the other layer. -/
def prepare_message_to_output (toAddr : Address) (amount : Nat) (inputs : List Input)
    (tp : TxPolicies) : TransactionBuilder :=
  { inputs := inputs, outputs := [Output.message toAddr amount], witnesses := [], policies := tp }

/-- Modelled from the spec: finalising the builder (`tb.build(provider)`);
the encoding is out of scope, so the transaction is the finished builder. -/
def buildTx (tb : TransactionBuilder) (p : Provider) : M Transaction := mpure tb

/-- Modelled from the spec: the transaction-id computation is an
out-of-scope encoding collaborator; only the chain id flows into it here. -/
def txIdOf (chainId : Nat) (tx : Transaction) : Nat := chainId

/-- Modelled from the spec: submission plus the wait for commitment
(design section 6). -/
def send_transaction_and_await_commit (p : Provider) (tx : Transaction) : M TxStatus :=
  mbind (emit (.submission tx)) fun _ =>
  mpure p.commitStatus

/-- Modelled from the spec: `take_receipts_checked` (design section 6) —
the receipts, or a checked-execution error when the on-chain script result
indicates failure. -/
def take_receipts_checked (st : TxStatus) : M (List Receipt) :=
  match st with
  | .success rs => mpure rs
  | .failure _ reason => throwErr (.checkedExecution reason)

/-- Modelled from the spec: `extract_message_nonce` lives in
`accounts_utils`, absent from the sources; per design section 4.5 it scans
the receipts for a cross-layer message record and extracts its nonce. -/
def extract_message_nonce (receipts : List Receipt) : Option Nat :=
  receipts.findSome? fun r =>
    match r with
    | .messageOut nonce _ => some nonce
    | _ => none

/-- `Account::transfer` (account.rs lines 181 to 210). -/
def transfer (acc : Account) (toAddr : Address) (amount : Nat) (asset_id : AssetId)
    (tx_policies : TxPolicies) : M (Nat × List Receipt) :=
  mbind (try_providerM acc) fun provider =>
  mbind (get_asset_inputs_for_amount acc asset_id amount) fun inputs =>
  let outputs := get_asset_outputs_for_amount acc toAddr asset_id amount
  let tb0 := prepare_transfer inputs outputs tx_policies
  mbind (add_witnesses acc tb0) fun tb1 =>
  let used_base_amount := if asset_id = AssetId.BASE then amount else 0
  mbind (adjust_for_fee acc tb1 used_base_amount) fun tb2 =>
  mbind (buildTx tb2 provider) fun tx =>
  let tx_id := txIdOf provider.chainId tx
  mbind (send_transaction_and_await_commit provider tx) fun tx_status =>
  mbind (take_receipts_checked tx_status) fun receipts =>
  mpure (tx_id, receipts)

/-- `Account::force_transfer_to_contract` (account.rs lines 221 to 269):
one placeholder contract input first, then the selected asset inputs; a
contract output and a change output; fee adjustment is invoked with the
whole `balance` as the used base amount. -/
def force_transfer_to_contract (acc : Account) (toAddr balance : Nat) (asset_id : AssetId)
    (tx_policies : TxPolicies) : M (Nat × List Receipt) :=
  mbind (try_providerM acc) fun provider =>
  let plain_contract_id := toAddr
  mbind (get_asset_inputs_for_amount acc asset_id balance) fun asset_inputs =>
  let inputs := Input.contract 0 0 0 0 0 plain_contract_id :: asset_inputs
  let outputs := [Output.contract 0 0 0, Output.change acc.address 0 asset_id]
  let tb0 := prepare_contract_transfer plain_contract_id balance asset_id inputs outputs tx_policies
  mbind (add_witnesses acc tb0) fun tb1 =>
  mbind (adjust_for_fee acc tb1 balance) fun tb2 =>
  mbind (buildTx tb2 provider) fun tx =>
  let tx_id := txIdOf provider.chainId tx
  mbind (send_transaction_and_await_commit provider tx) fun tx_status =>
  mbind (take_receipts_checked tx_status) fun receipts =>
  mpure (tx_id, receipts)

/-- `Account::withdraw_to_base_layer` (account.rs lines 274 to 307); the
nonce extraction goes through `expect`, i.e. aborts the process rather than
returning a typed error when no message receipt is present. -/
def withdraw_to_base_layer (acc : Account) (toAddr : Address) (amount : Nat)
    (tx_policies : TxPolicies) : M (Nat × Nat × List Receipt) :=
  mbind (try_providerM acc) fun provider =>
  mbind (get_asset_inputs_for_amount acc BASE_ASSET_ID amount) fun inputs =>
  let tb0 := prepare_message_to_output toAddr amount inputs tx_policies
  mbind (add_witnesses acc tb0) fun tb1 =>
  mbind (adjust_for_fee acc tb1 amount) fun tb2 =>
  mbind (buildTx tb2 provider) fun tx =>
  let tx_id := txIdOf provider.chainId tx
  mbind (send_transaction_and_await_commit provider tx) fun tx_status =>
  mbind (take_receipts_checked tx_status) fun receipts =>
  mbind (expectOr (extract_message_nonce receipts)
    "MessageId could not be retrieved from tx receipts.") fun nonce =>
  mpure (tx_id, nonce, receipts)


/-! Helper lemmas about the effect layer and the embedded operations. -/

theorem mbind_fst_ok {α β : Type} (x : M α) (f : α → M β) (b : β)
    (h : (mbind x f).1 = .ok b) : ∃ a, x.1 = .ok a ∧ (f a).1 = .ok b := by
  rcases x with ⟨xo, xe⟩
  rcases xo with a | e | m <;> simp [mbind] at h ⊢
  exact h

theorem mem_mbind {α β : Type} (x : M α) (f : α → M β) (ev : Event)
    (h : ev ∈ (mbind x f).2) :
    ev ∈ x.2 ∨ ∃ a, x.1 = .ok a ∧ ev ∈ (f a).2 := by
  rcases x with ⟨xo, xe⟩
  rcases xo with a | e | m <;> simp [mbind] at h ⊢ <;> tauto

theorem try_providerM_events (acc : Account) : (try_providerM acc).2 = [] := by
  cases hp : acc.provider <;> simp [try_providerM, hp, mpure, throwErr]

theorem add_witnesses_eq (acc : Account) (tb : TransactionBuilder) :
    add_witnesses acc tb = (.ok tb, []) := rfl

theorem send_events (p : Provider) (tx : Transaction) :
    (send_transaction_and_await_commit p tx).2 = [Event.submission tx] := rfl

theorem take_receipts_events (st : TxStatus) : (take_receipts_checked st).2 = [] := by
  cases st <;> rfl

theorem expectOr_events {α : Type} (o : Option α) (msg : String) :
    (expectOr o msg).2 = [] := by
  cases o <;> rfl

def sumCoinTypes (l : List CoinType) : Nat := (l.map CoinType.amount).sum

def sumInputs (l : List Input) : Nat := (l.map Input.resourceAmount).sum

theorem sumCoinTypes_cons (r : CoinType) (l : List CoinType) :
    sumCoinTypes (r :: l) = r.amount + sumCoinTypes l := by
  simp [sumCoinTypes]

theorem sumInputs_map_resource (l : List CoinType) :
    sumInputs (l.map Input.resourceSigned) = sumCoinTypes l := by
  induction l with
  | nil => rfl
  | cons r l ih =>
    simp [sumInputs, sumCoinTypes, Input.resourceAmount] at ih ⊢
    exact ih

/-- The greedy selector covers the target whenever it succeeds. -/
theorem selectGreedy_sum : ∀ (resources : List CoinType) (target : Nat) (l : List CoinType),
    selectGreedy resources target = some l → target ≤ sumCoinTypes l := by
  intro resources
  induction resources with
  | nil =>
    intro target l h
    rw [selectGreedy] at h
    by_cases ht : target = 0
    · subst ht; exact Nat.zero_le _
    · simp [ht] at h
  | cons r rest ih =>
    intro target l h
    rw [selectGreedy] at h
    by_cases ht : target = 0
    · subst ht; exact Nat.zero_le _
    · simp only [ht, if_false] at h
      by_cases hle : target ≤ r.amount
      · simp only [hle, if_true] at h
        cases h
        simp [sumCoinTypes_cons, sumCoinTypes]
        omega
      · simp only [hle, if_false] at h
        cases hrec : selectGreedy rest (target - r.amount) with
        | none => rw [hrec] at h; cases h
        | some l' =>
          rw [hrec] at h
          cases h
          have hs := ih (target - r.amount) l' hrec
          rw [sumCoinTypes_cons]
          omega

theorem get_asset_inputs_events (acc : Account) (a m : Nat) :
    (get_asset_inputs_for_amount acc a m).2 = []
    ∨ (get_asset_inputs_for_amount acc a m).2 = [Event.inputSelection a m] := by
  rcases hp : acc.provider with _ | p
  · left; simp [get_asset_inputs_for_amount, try_providerM, hp, mbind, throwErr]
  · right
    rcases hsel : selectGreedy
        (p.spendable { fromAddr := acc.address, asset_id := a, amount := m }) m with _ | sel <;>
      simp [get_asset_inputs_for_amount, try_providerM, hp, hsel, mbind, mpure, emit, throwErr]

theorem get_asset_inputs_no_submission (acc : Account) (a m : Nat) (tx : Transaction) :
    Event.submission tx ∉ (get_asset_inputs_for_amount acc a m).2 := by
  rcases get_asset_inputs_events acc a m with he | he <;> rw [he] <;> simp

theorem get_asset_inputs_no_feeRec (acc : Account) (a m u : Nat) :
    Event.feeReconciliation u ∉ (get_asset_inputs_for_amount acc a m).2 := by
  rcases get_asset_inputs_events acc a m with he | he <;> rw [he] <;> simp

theorem adjust_for_fee_events (acc : Account) (tb : TransactionBuilder) (used : Nat) :
    (adjust_for_fee acc tb used).2 = [Event.feeReconciliation used]
    ∨ (adjust_for_fee acc tb used).2 = [Event.feeReconciliation used, Event.feeEstimation]
    ∨ ∃ missing, (adjust_for_fee acc tb used).2
        = [Event.feeReconciliation used, Event.feeEstimation,
           Event.inputSelection BASE_ASSET_ID missing] := by
  rcases hp : acc.provider with _ | p
  · left
    simp [adjust_for_fee, try_providerM, hp, mbind, emit, throwErr]
  · by_cases hm : p.estimateFee tb - used > 0
    · right; right
      refine ⟨p.estimateFee tb - used, ?_⟩
      rcases hsel : selectGreedy
          (p.spendable { fromAddr := acc.address, asset_id := BASE_ASSET_ID,
                          amount := p.estimateFee tb - used })
          (p.estimateFee tb - used) with _ | sel <;>
        simp [adjust_for_fee, try_providerM, hp, calculate_missing_base_amount,
              get_asset_inputs_for_amount, hm, hsel, mbind, mpure, emit, throwErr]
    · right; left
      simp [adjust_for_fee, try_providerM, hp, calculate_missing_base_amount, hm,
            mbind, mpure, emit]

theorem adjust_for_fee_no_submission (acc : Account) (tb : TransactionBuilder)
    (used : Nat) (tx : Transaction) :
    Event.submission tx ∉ (adjust_for_fee acc tb used).2 := by
  rcases adjust_for_fee_events acc tb used with he | he | ⟨miss, he⟩ <;> rw [he] <;> simp

theorem adjust_for_fee_feeRec_arg (acc : Account) (tb : TransactionBuilder) (used u : Nat)
    (h : Event.feeReconciliation u ∈ (adjust_for_fee acc tb used).2) : u = used := by
  rcases adjust_for_fee_events acc tb used with he | he | ⟨miss, he⟩ <;> rw [he] at h <;>
    simp at h <;> exact h

theorem adjust_for_fee_ok_shape (acc : Account) (tb tb' : TransactionBuilder) (used : Nat)
    (h : (adjust_for_fee acc tb used).1 = .ok tb') :
    tb' = tb ∨ ∃ newInputs, tb' = adjust_inputs_outputs tb newInputs acc.address := by
  rcases hp : acc.provider with _ | p
  · simp [adjust_for_fee, try_providerM, hp, mbind, emit, throwErr] at h
  · by_cases hm : p.estimateFee tb - used > 0
    · rcases hsel : selectGreedy
          (p.spendable { fromAddr := acc.address, asset_id := BASE_ASSET_ID,
                          amount := p.estimateFee tb - used })
          (p.estimateFee tb - used) with _ | sel <;>
        simp [adjust_for_fee, try_providerM, hp, calculate_missing_base_amount,
              get_asset_inputs_for_amount, hm, hsel, mbind, mpure, emit, throwErr] at h
      right
      exact ⟨sel.map Input.resourceSigned, h.symm⟩
    · left
      simp [adjust_for_fee, try_providerM, hp, calculate_missing_base_amount, hm,
            mbind, mpure, emit] at h
      exact h.symm

theorem adjust_inputs_outputs_witnesses (tb : TransactionBuilder) (new : List Input)
    (addr : Address) : (adjust_inputs_outputs tb new addr).witnesses = tb.witnesses := rfl

theorem adjust_for_fee_ok_witnesses (acc : Account) (tb tb' : TransactionBuilder) (used : Nat)
    (h : (adjust_for_fee acc tb used).1 = .ok tb') : tb'.witnesses = tb.witnesses := by
  rcases adjust_for_fee_ok_shape acc tb tb' used h with h1 | ⟨new, h2⟩
  · rw [h1]
  · rw [h2]
    exact adjust_inputs_outputs_witnesses tb new acc.address


/-! Concrete fixtures used by counterexamples and witnesses. -/

/-- A spendable base-asset coin of the given amount. -/
def baseCoin (amount : Nat) : CoinType :=
  .coin { utxo := 0, owner := 1, asset_id := 0, amount := amount }

/-- A well-stocked coin in the requested asset. -/
def happyCoin (asset : AssetId) : CoinType :=
  .coin { utxo := 1, owner := 4, asset_id := asset, amount := 1000 }

/-- A provider with ample funds in every asset, zero fee estimates and a
successful commit carrying only a script-result receipt. -/
def pHappy : Provider :=
  { spendable := fun f => [happyCoin f.asset_id]
    estimateFee := fun _ => 0
    coinsOf := fun _ _ => []
    assetBalanceOf := fun _ _ => 0
    balancesOf := fun _ => []
    messagesOf := fun _ => []
    chainId := 9
    commitStatus := .success [Receipt.scriptResult 1] }

def accHappy : Account := { address := 4, provider := some pHappy }

/-- A provider whose fee estimate grows by one unit per transaction input
and whose resources are small base coins of two units each. -/
def pC1 : Provider :=
  { spendable := fun _ => List.replicate 8 (baseCoin 2)
    estimateFee := fun tb => 10 + tb.inputs.length
    coinsOf := fun _ _ => []
    assetBalanceOf := fun _ _ => 0
    balancesOf := fun _ => []
    messagesOf := fun _ => []
    chainId := 0
    commitStatus := .success [] }

def accC1 : Account := { address := 1, provider := some pC1 }

/-- The builder holding `k` of the two-unit base coins. -/
def tbC1 (k : Nat) : TransactionBuilder :=
  { inputs := List.replicate k (Input.resourceSigned (baseCoin 2))
    outputs := []
    witnesses := []
    policies := {} }

/-- Shortfall of the growing-fee scenario once `k` top-up inputs are in:
estimated fee of the enlarged draft minus the base value committed so far. -/
def shortC1 (k : Nat) : Nat := pC1.estimateFee (tbC1 k) - 2 * k

def tbEmpty : TransactionBuilder :=
  { inputs := [], outputs := [], witnesses := [], policies := {} }


/-! Claim theorems. -/

/-- Claim C9: for every recipient, asset and amount,
`get_asset_outputs_for_amount` returns exactly two outputs in this order —
a coin output paying `amount` of the asset to the recipient, then a change
output owned by the account's own address for the same asset with its
amount field set to zero — and no other outputs. -/
theorem C9_asset_outputs_exact (acc : Account) (toAddr : Address) (asset_id : AssetId)
    (amount : Nat) :
    get_asset_outputs_for_amount acc toAddr asset_id amount
      = [Output.coin toAddr amount asset_id, Output.change acc.address 0 asset_id]
    ∧ (get_asset_outputs_for_amount acc toAddr asset_id amount).length = 2 :=
  ⟨rfl, rfl⟩

/-- Claim C8: for an account with no bound network endpoint, every
provider-needing operation — the balance, coin and message queries, the
spendable-resource query, `transfer`, `force_transfer_to_contract` and
`withdraw_to_base_layer` — fails immediately with the `NoProvider` account
error and performs no collaborator interaction at all (empty trace). -/
theorem C8_no_provider_immediate (addr toAddr amount asset balance : Nat)
    (tp : TxPolicies) :
    get_coins ⟨addr, none⟩ asset = (.err AccountError.no_provider.toError, [])
    ∧ get_asset_balance ⟨addr, none⟩ asset = (.err AccountError.no_provider.toError, [])
    ∧ get_messages ⟨addr, none⟩ = (.err AccountError.no_provider.toError, [])
    ∧ get_balances ⟨addr, none⟩ = (.err AccountError.no_provider.toError, [])
    ∧ get_spendable_resources ⟨addr, none⟩ asset amount
        = (.err AccountError.no_provider.toError, [])
    ∧ transfer ⟨addr, none⟩ toAddr amount asset tp
        = (.err AccountError.no_provider.toError, [])
    ∧ force_transfer_to_contract ⟨addr, none⟩ toAddr balance asset tp
        = (.err AccountError.no_provider.toError, [])
    ∧ withdraw_to_base_layer ⟨addr, none⟩ toAddr amount tp
        = (.err AccountError.no_provider.toError, []) :=
  ⟨rfl, rfl, rfl, rfl, rfl, rfl, rfl, rfl⟩

/-- Claim C4 is false as stated: a resource-selection call with target
amount zero does query the provider collaborator (the filter is forwarded
with amount zero) and returns whatever the provider answers — here a
non-empty list. -/
theorem C4_counterexample :
    (get_spendable_resources accHappy 1 0).1 = .ok [happyCoin 1]
    ∧ (get_spendable_resources accHappy 1 0).1 ≠ .ok []
    ∧ Event.resourceQuery { fromAddr := 4, asset_id := 1, amount := 0 }
        ∈ (get_spendable_resources accHappy 1 0).2 := by
  refine ⟨rfl, ?_, ?_⟩ <;> decide

/-- Claim C4 amended: a resource-selection call with target amount zero has
no zero-amount short circuit — it builds the filter with amount zero,
queries the provider with it, and returns the provider's response
verbatim. -/
theorem C4_zero_forwards_query (acc : Account) (p : Provider) (asset : AssetId)
    (hp : acc.provider = some p) :
    get_spendable_resources acc asset 0
      = (.ok (p.spendable { fromAddr := acc.address, asset_id := asset, amount := 0 }),
         [Event.resourceQuery { fromAddr := acc.address, asset_id := asset, amount := 0 }]) := by
  simp [get_spendable_resources, try_providerM, hp, mbind, mpure, emit]

/-- Witness for C4: the amended statement evaluated on a concrete account. -/
theorem C4_witness :
    get_spendable_resources accHappy 1 0
      = (.ok (pHappy.spendable
            { fromAddr := accHappy.address, asset_id := 1, amount := 0 }),
         [Event.resourceQuery { fromAddr := accHappy.address, asset_id := 1, amount := 0 }]) :=
  C4_zero_forwards_query accHappy pHappy 1 rfl

/-- Claim C7: when the committed base amount already covers the estimated
fee, the missing base amount clamps to zero, no additional inputs are
requested (no selection interaction occurs) and the builder is returned
completely unchanged. -/
theorem C7_clamped_no_change (acc : Account) (p : Provider) (tb : TransactionBuilder)
    (used : Nat) (hp : acc.provider = some p) (hcov : p.estimateFee tb ≤ used) :
    calculate_missing_base_amount tb used p = (.ok 0, [Event.feeEstimation])
    ∧ adjust_for_fee acc tb used
        = (.ok tb, [Event.feeReconciliation used, Event.feeEstimation]) := by
  have hz : p.estimateFee tb - used = 0 := Nat.sub_eq_zero_of_le hcov
  constructor
  · simp [calculate_missing_base_amount, hz, mbind, mpure, emit]
  · simp [adjust_for_fee, try_providerM, hp, calculate_missing_base_amount, hz,
          mbind, mpure, emit]

/-- Witness for C7 at a concrete account, builder and committed amount. -/
theorem C7_witness :
    calculate_missing_base_amount tbEmpty 5 pHappy = (.ok 0, [Event.feeEstimation])
    ∧ adjust_for_fee accHappy tbEmpty 5
        = (.ok tbEmpty, [Event.feeReconciliation 5, Event.feeEstimation]) :=
  C7_clamped_no_change accHappy pHappy tbEmpty 5 rfl (by decide)

/-- Claim C2 is contradicted by the code: `force_transfer_to_contract`
passes the entire `balance` to fee reconciliation as the already-committed
base amount even when the transferred asset is not the base asset (asset 7
here), where the claim requires zero credit. -/
theorem C2_unconditional_credit :
    (7 : AssetId) ≠ AssetId.BASE
    ∧ Event.feeReconciliation 100 ∈ (force_transfer_to_contract accHappy 11 100 7 {}).2
    ∧ Event.feeReconciliation 0 ∉ (force_transfer_to_contract accHappy 11 100 7 {}).2 := by
  refine ⟨?_, ?_, ?_⟩ <;> decide

/-- Claim C5: when the commit receipts carry no cross-layer message record,
`withdraw_to_base_layer` neither returns a nonce nor a typed error — the
`expect` call aborts the process with a panic, contradicting the typed
propagation policy. -/
theorem C5_missing_receipt_panics :
    extract_message_nonce [Receipt.scriptResult 1] = none
    ∧ (withdraw_to_base_layer accHappy 7 100 {}).1
        = .panicked "MessageId could not be retrieved from tx receipts."
    ∧ (∀ e : Error, (withdraw_to_base_layer accHappy 7 100 {}).1 ≠ .err e)
    ∧ (∀ n : Nat, ∀ rest : Nat × List Receipt,
        (withdraw_to_base_layer accHappy 7 100 {}).1 ≠ .ok (n, rest)) := by
  have hval : (withdraw_to_base_layer accHappy 7 100 {}).1
      = .panicked "MessageId could not be retrieved from tx receipts." := rfl
  refine ⟨rfl, rfl, ?_, ?_⟩
  · intro e h
    exact Outcome.noConfusion (hval.symm.trans h)
  · intro n rest h
    exact Outcome.noConfusion (hval.symm.trans h)


/-- The builder produced by the single reconciliation pass of the
growing-fee scenario: five two-unit base coins appended, one base change
output added. -/
def tbC1res : TransactionBuilder :=
  { inputs := List.replicate 5 (Input.resourceSigned (baseCoin 2))
  , outputs := [Output.change 1 0 BASE_ASSET_ID]
  , witnesses := []
  , policies := {} }

/-- Claim C1 is false as stated: in a run where each additional input
strictly reduces the shortfall (checked explicitly for the five inputs
actually added), `adjust_for_fee` terminates right after a pass that added
five new inputs — not after a pass adding zero — and the re-estimated
required fee of the resulting transaction (15) exceeds the committed base
amount (0 + 10): a further pass would still find a missing amount of 5. -/
theorem C1_counterexample :
    ((List.range 5).all fun k => decide (shortC1 (k + 1) < shortC1 k)) = true
    ∧ (adjust_for_fee accC1 (tbC1 0) 0).1 = .ok tbC1res
    ∧ sumInputs tbC1res.inputs = 10
    ∧ pC1.estimateFee tbC1res = 15
    ∧ (calculate_missing_base_amount tbC1res (0 + 10) pC1).1 = .ok 5
    ∧ ¬ (15 ≤ 0 + 10) := by
  refine ⟨?_, ?_, ?_, ?_, ?_, ?_⟩ <;> decide

/-- Claim C1 amended: `adjust_for_fee` performs exactly one reconciliation
pass — the fee is estimated once and, when the committed amount falls
short, base inputs covering that single pre-top-up estimate are appended
(the committed amount plus the appended value covers the fee as estimated
before the top-up); no re-estimation follows, so the enlarged
transaction's fee may exceed the committed amount. -/
theorem C1_single_pass (acc : Account) (p : Provider) (tb tb' : TransactionBuilder)
    (used : Nat) (hp : acc.provider = some p)
    (h : (adjust_for_fee acc tb used).1 = .ok tb') :
    ∃ newInputs, tb'.inputs = tb.inputs ++ newInputs
      ∧ p.estimateFee tb ≤ used + sumInputs newInputs := by
  by_cases hm : p.estimateFee tb - used > 0
  · rcases hsel : selectGreedy
        (p.spendable { fromAddr := acc.address, asset_id := BASE_ASSET_ID,
                        amount := p.estimateFee tb - used })
        (p.estimateFee tb - used) with _ | sel <;>
      simp [adjust_for_fee, try_providerM, hp, calculate_missing_base_amount,
            get_asset_inputs_for_amount, hm, hsel, mbind, mpure, emit, throwErr] at h
    refine ⟨sel.map Input.resourceSigned, ?_, ?_⟩
    · rw [← h]
      rfl
    · rw [sumInputs_map_resource]
      have hs := selectGreedy_sum _ _ _ hsel
      omega
  · simp [adjust_for_fee, try_providerM, hp, calculate_missing_base_amount, hm,
          mbind, mpure, emit] at h
    refine ⟨[], ?_, ?_⟩
    · rw [← h]
      simp
    · rw [show sumInputs ([] : List Input) = 0 from rfl]
      omega

/-- Witness for C1: the amended single-pass statement evaluated on the
growing-fee scenario. -/
theorem C1_single_pass_witness :
    ∃ newInputs, tbC1res.inputs = (tbC1 0).inputs ++ newInputs
      ∧ pC1.estimateFee (tbC1 0) ≤ 0 + sumInputs newInputs :=
  C1_single_pass accC1 pC1 (tbC1 0) tbC1res 0 rfl (by decide)

/-- Iterated application of the assembler append operation. -/
def applyBatches (tb : TransactionBuilder) (batches : List (List Input × Address)) :
    TransactionBuilder :=
  batches.foldl (fun b pr => adjust_inputs_outputs b pr.1 pr.2) tb

theorem applyBatches_inputs (tb : TransactionBuilder)
    (batches : List (List Input × Address)) :
    (applyBatches tb batches).inputs = tb.inputs ++ (batches.map Prod.fst).flatten := by
  induction batches generalizing tb with
  | nil => simp [applyBatches]
  | cons b bs ih =>
    have hstep : applyBatches tb (b :: bs) = applyBatches (adjust_inputs_outputs tb b.1 b.2) bs :=
      rfl
    rw [hstep, ih]
    simp [adjust_inputs_outputs, List.append_assoc]

/-- Claim C6: for a builder whose first `n` inputs are contract inputs, any
number of assembler append calls leaves those contract inputs at their
original leading indices — the length-`n` prefix is unchanged and still
all-contract — and every appended input sits strictly after them, so
output entries referencing input indices below `n` stay valid. -/
theorem C6_contract_index_stability (tb : TransactionBuilder) (n : Nat)
    (batches : List (List Input × Address))
    (hn : n ≤ tb.inputs.length)
    (hc : ((tb.inputs.take n).all Input.isContract) = true) :
    (applyBatches tb batches).inputs.take n = tb.inputs.take n
    ∧ (((applyBatches tb batches).inputs.take n).all Input.isContract) = true
    ∧ (applyBatches tb batches).inputs = tb.inputs ++ (batches.map Prod.fst).flatten := by
  have h := applyBatches_inputs tb batches
  have htake : (applyBatches tb batches).inputs.take n = tb.inputs.take n := by
    rw [h, List.take_append_of_le_length hn]
  exact ⟨htake, by rw [htake]; exact hc, h⟩

/-- A builder with two leading contract inputs and one resource input. -/
def tbC6 : TransactionBuilder :=
  { inputs := [Input.contract 0 0 0 0 0 3, Input.contract 0 0 0 0 0 4,
               Input.resourceSigned (baseCoin 2)]
  , outputs := [Output.contract 0 0 0]
  , witnesses := []
  , policies := {} }

/-- Two successive append batches of resource inputs. -/
def batchesC6 : List (List Input × Address) :=
  [([Input.resourceSigned (baseCoin 2)], 1),
   ([Input.resourceSigned (baseCoin 2), Input.resourceSigned (baseCoin 2)], 1)]

/-- Witness for C6 on a concrete builder and two append batches. -/
theorem C6_witness :
    (applyBatches tbC6 batchesC6).inputs.take 2 = tbC6.inputs.take 2
    ∧ (((applyBatches tbC6 batchesC6).inputs.take 2).all Input.isContract) = true
    ∧ (applyBatches tbC6 batchesC6).inputs = tbC6.inputs ++ (batchesC6.map Prod.fst).flatten :=
  C6_contract_index_stability tbC6 2 batchesC6 (by decide) (by decide)


/-- Claim C3: whenever `transfer` invokes fee reconciliation, the credited
already-committed base amount is exactly the transfer amount when the
transferred asset is the base asset and zero for any other asset. -/
theorem C3_transfer_base_credit (acc : Account) (toAddr amount asset_id : Nat)
    (tp : TxPolicies) (u : Nat)
    (h : Event.feeReconciliation u ∈ (transfer acc toAddr amount asset_id tp).2) :
    u = if asset_id = AssetId.BASE then amount else 0 := by
  unfold transfer at h
  rcases mem_mbind _ _ _ h with h | ⟨p, hp, h⟩
  · rw [try_providerM_events] at h
    simp at h
  rcases mem_mbind _ _ _ h with h | ⟨ins, hins, h⟩
  · exact absurd h (get_asset_inputs_no_feeRec acc asset_id amount u)
  rcases mem_mbind _ _ _ h with h | ⟨tb1, htb1, h⟩
  · simp [add_witnesses_eq] at h
  rcases mem_mbind _ _ _ h with h | ⟨tb2, htb2, h⟩
  · exact adjust_for_fee_feeRec_arg acc _ _ u h
  rcases mem_mbind _ _ _ h with h | ⟨tx, htx, h⟩
  · simp [buildTx, mpure] at h
  rcases mem_mbind _ _ _ h with h | ⟨st, hst, h⟩
  · rw [send_events] at h
    simp at h
  rcases mem_mbind _ _ _ h with h | ⟨rs, hrs, h⟩
  · rw [take_receipts_events] at h
    simp at h
  · simp [mpure] at h

/-- Witness for C3: the base-asset transfer run credits the transfer
amount. -/
theorem C3_witness :
    Event.feeReconciliation 50 ∈ (transfer accHappy 3 50 0 {}).2
    ∧ (50 : Nat) = if (0 : AssetId) = AssetId.BASE then 50 else 0 :=
  ⟨by decide, C3_transfer_base_credit accHappy 3 50 0 {} 50 (by decide)⟩


theorem transfer_submission_witnesses (acc : Account) (toAddr amount asset_id : Nat)
    (tp : TxPolicies) (tx : Transaction)
    (h : Event.submission tx ∈ (transfer acc toAddr amount asset_id tp).2) :
    tx.witnesses = [] := by
  unfold transfer at h
  rcases mem_mbind _ _ _ h with h | ⟨p, hp, h⟩
  · rw [try_providerM_events] at h
    simp at h
  rcases mem_mbind _ _ _ h with h | ⟨ins, hins, h⟩
  · exact absurd h (get_asset_inputs_no_submission acc asset_id amount tx)
  rcases mem_mbind _ _ _ h with h | ⟨tb1, htb1, h⟩
  · simp [add_witnesses_eq] at h
  simp only [add_witnesses, mpure] at htb1
  replace htb1 : tb1
      = prepare_transfer ins (get_asset_outputs_for_amount acc toAddr asset_id amount) tp := by
    cases htb1
    rfl
  rcases mem_mbind _ _ _ h with h | ⟨tb2, htb2, h⟩
  · exact absurd h (adjust_for_fee_no_submission acc _ _ tx)
  have hw : tb2.witnesses = tb1.witnesses :=
    adjust_for_fee_ok_witnesses acc tb1 tb2 _ htb2
  rcases mem_mbind _ _ _ h with h | ⟨tx', htx, h⟩
  · simp [buildTx, mpure] at h
  simp only [buildTx, mpure] at htx
  replace htx : tx' = tb2 := by
    cases htx
    rfl
  rcases mem_mbind _ _ _ h with h | ⟨st, hst, h⟩
  · rw [send_events] at h
    simp at h
    rw [h, htx, hw, htb1]
    rfl
  rcases mem_mbind _ _ _ h with h | ⟨rs, hrs, h⟩
  · rw [take_receipts_events] at h
    simp at h
  · simp [mpure] at h

theorem force_transfer_submission_witnesses (acc : Account) (toAddr balance asset_id : Nat)
    (tp : TxPolicies) (tx : Transaction)
    (h : Event.submission tx ∈ (force_transfer_to_contract acc toAddr balance asset_id tp).2) :
    tx.witnesses = [] := by
  unfold force_transfer_to_contract at h
  rcases mem_mbind _ _ _ h with h | ⟨p, hp, h⟩
  · rw [try_providerM_events] at h
    simp at h
  rcases mem_mbind _ _ _ h with h | ⟨ins, hins, h⟩
  · exact absurd h (get_asset_inputs_no_submission acc asset_id balance tx)
  rcases mem_mbind _ _ _ h with h | ⟨tb1, htb1, h⟩
  · simp [add_witnesses_eq] at h
  simp only [add_witnesses, mpure] at htb1
  replace htb1 : tb1
      = prepare_contract_transfer toAddr balance asset_id
          (Input.contract 0 0 0 0 0 toAddr :: ins)
          [Output.contract 0 0 0, Output.change acc.address 0 asset_id] tp := by
    cases htb1
    rfl
  rcases mem_mbind _ _ _ h with h | ⟨tb2, htb2, h⟩
  · exact absurd h (adjust_for_fee_no_submission acc _ _ tx)
  have hw : tb2.witnesses = tb1.witnesses :=
    adjust_for_fee_ok_witnesses acc tb1 tb2 _ htb2
  rcases mem_mbind _ _ _ h with h | ⟨tx', htx, h⟩
  · simp [buildTx, mpure] at h
  simp only [buildTx, mpure] at htx
  replace htx : tx' = tb2 := by
    cases htx
    rfl
  rcases mem_mbind _ _ _ h with h | ⟨st, hst, h⟩
  · rw [send_events] at h
    simp at h
    rw [h, htx, hw, htb1]
    rfl
  rcases mem_mbind _ _ _ h with h | ⟨rs, hrs, h⟩
  · rw [take_receipts_events] at h
    simp at h
  · simp [mpure] at h

theorem withdraw_submission_witnesses (acc : Account) (toAddr amount : Nat)
    (tp : TxPolicies) (tx : Transaction)
    (h : Event.submission tx ∈ (withdraw_to_base_layer acc toAddr amount tp).2) :
    tx.witnesses = [] := by
  unfold withdraw_to_base_layer at h
  rcases mem_mbind _ _ _ h with h | ⟨p, hp, h⟩
  · rw [try_providerM_events] at h
    simp at h
  rcases mem_mbind _ _ _ h with h | ⟨ins, hins, h⟩
  · exact absurd h (get_asset_inputs_no_submission acc BASE_ASSET_ID amount tx)
  rcases mem_mbind _ _ _ h with h | ⟨tb1, htb1, h⟩
  · simp [add_witnesses_eq] at h
  simp only [add_witnesses, mpure] at htb1
  replace htb1 : tb1 = prepare_message_to_output toAddr amount ins tp := by
    cases htb1
    rfl
  rcases mem_mbind _ _ _ h with h | ⟨tb2, htb2, h⟩
  · exact absurd h (adjust_for_fee_no_submission acc _ _ tx)
  have hw : tb2.witnesses = tb1.witnesses :=
    adjust_for_fee_ok_witnesses acc tb1 tb2 _ htb2
  rcases mem_mbind _ _ _ h with h | ⟨tx', htx, h⟩
  · simp [buildTx, mpure] at h
  simp only [buildTx, mpure] at htx
  replace htx : tx' = tb2 := by
    cases htx
    rfl
  rcases mem_mbind _ _ _ h with h | ⟨st, hst, h⟩
  · rw [send_events] at h
    simp at h
    rw [h, htx, hw, htb1]
    rfl
  rcases mem_mbind _ _ _ h with h | ⟨rs, hrs, h⟩
  · rw [take_receipts_events] at h
    simp at h
  rcases mem_mbind _ _ _ h with h | ⟨nonce, hn, h⟩
  · rw [expectOr_events] at h
    simp at h
  · simp [mpure] at h

/-- Claim C10: the default `add_witnesses` always succeeds and leaves the
builder entirely unchanged, so the three workflows attach no witnesses at
this layer: every transaction they submit carries an empty witness list. -/
theorem C10_no_witnesses (acc : Account) (tb : TransactionBuilder) :
    add_witnesses acc tb = (.ok tb, ([] : List Event))
    ∧ (∀ toAddr amount asset_id tp tx,
        Event.submission tx ∈ (transfer acc toAddr amount asset_id tp).2 →
          tx.witnesses = [])
    ∧ (∀ toAddr balance asset_id tp tx,
        Event.submission tx ∈ (force_transfer_to_contract acc toAddr balance asset_id tp).2 →
          tx.witnesses = [])
    ∧ (∀ toAddr amount tp tx,
        Event.submission tx ∈ (withdraw_to_base_layer acc toAddr amount tp).2 →
          tx.witnesses = []) :=
  ⟨rfl,
   fun toAddr amount asset_id tp tx h =>
     transfer_submission_witnesses acc toAddr amount asset_id tp tx h,
   fun toAddr balance asset_id tp tx h =>
     force_transfer_submission_witnesses acc toAddr balance asset_id tp tx h,
   fun toAddr amount tp tx h =>
     withdraw_submission_witnesses acc toAddr amount tp tx h⟩

/-- The transaction submitted by the concrete withdraw run. -/
def txC10 : Transaction :=
  { inputs := [Input.resourceSigned (happyCoin 0)]
  , outputs := [Output.message 7 100]
  , witnesses := []
  , policies := {} }

/-- Witness for C10: the workflow clause applied to the concrete withdraw
run whose submitted transaction is `txC10`. -/
theorem C10_witness : txC10.witnesses = [] :=
  (C10_no_witnesses accHappy tbEmpty).2.2.2 7 100 {} txC10 (by decide)

end Fuels
